import Mathlib

/-!
# Shallow embedding of the SolanaStakePool program

This file embeds the instruction processor of `src/program/src/processor.rs`
(and the parts of its data model it uses) as executable Lean definitions, and
proves the frozen specification claims about them.

Conventions of the embedding:
* `Pubkey` is modelled as `Nat` (the program only compares keys for equality).
* Rust `u64`/`u128` values are `Nat`s; wrapping arithmetic (`+=`, `-=` in a
  release build) is written explicitly with `% U64_MOD`; `u128` overflow checks
  of `checked_mul` are written as explicit `< U128_MOD` tests.
* Fallible Rust code returning `Result<_, ProgramError>` becomes
  `Except ProgramError _`; `Option` stays `Option`.
* Program-derived addresses (`find_program_address` /
  `create_program_address`) are SHA-256 based; they are modelled as an
  abstract `Deriver` record of functions that each handler takes as a
  parameter, since the program only ever compares their outputs for equality.
* Cross-program invocations (stake authorize/merge/split, token
  mint/burn/transfer) are modelled by recording the amounts the handler passes
  to them in the handler's result; an aborting invocation aborts the whole
  transaction, so a successful run is exactly one in which every recorded
  invocation happened.

The struct `StakePool` and `ValidatorStakeList` live in `state.rs`, which is
absent from `src/`; only their uses (in `processor.rs`, the tests and the CLI)
are available.  Their methods are therefore modelled from the spec, and each
such definition is marked `Modelled from the spec:` in its doc comment.
-/

namespace StakePoolProgram

/-- Solana public keys, compared only for equality by the program. -/
abbrev Pubkey := Nat

/-- `2 ^ 64`, the modulus of Rust `u64` arithmetic. -/
def U64_MOD : Nat := 2 ^ 64

/-- `2 ^ 128`, the modulus of Rust `u128` arithmetic. -/
def U128_MOD : Nat := 2 ^ 128

/-- The error enum of `error.rs` (variant list taken from the
`PrintProgramError` impl at the bottom of `processor.rs`, which matches every
variant). -/
inductive StakePoolError where
  | alreadyInUse
  | invalidProgramAddress
  | invalidState
  | calculationFailure
  | feeTooHigh
  | wrongAccountMint
  | nonZeroBalance
  | wrongOwner
  | signatureMissing
  | invalidValidatorStakeList
  | invalidFeeAccount
  | wrongPoolMint
  | wrongStakeState
  | userStakeNotActive
  | validatorAlreadyAdded
  | validatorNotFound
  | invalidStakeAccountAddress
  | stakeListOutOfDate
  | stakeListAndPoolOutOfDate
  | unknownValidatorStakeAccount
  | wrongMintingAuthority
  | accountNotRentExempt
  | incorrectTokenProgramId
  | expectedMint
  | expectedAccount
  | zeroAmount
  | conversionFailure
  deriving DecidableEq, Repr

/-- The `solana_program::program_error::ProgramError` cases the processor
produces: custom stake-pool errors (via `Into`), `IncorrectProgramId` and
`InvalidAccountData`. -/
inductive ProgramError where
  | custom (e : StakePoolError)
  | incorrectProgramId
  | invalidAccountData
  deriving DecidableEq, Repr

/-- `fn proportional(amount: u64, numerator: u128, denominator: u128)` at the
bottom of `processor.rs`: `denominator == 0` returns `Some(amount)`; otherwise
`(amount as u128).checked_mul(numerator)?.checked_div(denominator)?` narrowed
by `u64::try_from(..).ok()`. -/
def proportional (amount numerator denominator : Nat) : Option Nat :=
  if denominator = 0 then some amount
  else if amount * numerator < U128_MOD then
    if amount * numerator / denominator < U64_MOD then
      some (amount * numerator / denominator)
    else none
  else none

/-- `fn value_from_shares(shares, total_value, total_shares)` in
`processor.rs`: `proportional(shares, total_value, total_shares)`. -/
def value_from_shares (shares total_value total_shares : Nat) : Option Nat :=
  proportional shares total_value total_shares

/-- `fn shares_from_value(value, total_value, total_shares)` in
`processor.rs`: `proportional(value, total_shares, total_value)`. -/
def shares_from_value (value total_value total_shares : Nat) : Option Nat :=
  proportional value total_shares total_value

/-- The fee schedule stored in the pool state (`InitArgs.fee`); the tests cast
its fields from `u64` to `u128`, so both fields are `u64`. -/
structure Fee where
  denominator : Nat
  numerator : Nat
  deriving DecidableEq, Repr

/-- The pool state written and read by the handlers (field list taken from
`process_initialize`, which assigns every field). -/
structure StakePool where
  version : Nat
  owner : Pubkey
  depositBumpSeed : Nat
  withdrawBumpSeed : Nat
  validatorStakeList : Pubkey
  poolMint : Pubkey
  ownerFeeAccount : Pubkey
  tokenProgramId : Pubkey
  stakeTotal : Nat
  poolTotal : Nat
  lastUpdateEpoch : Nat
  fee : Fee
  deriving DecidableEq, Repr

/-- One record of the validator list (`ValidatorStakeInfo`, fields taken from
the struct literal pushed in `process_add_validator_stake_account`). -/
structure ValidatorStakeInfo where
  validatorAccount : Pubkey
  balance : Nat
  lastUpdateEpoch : Nat
  deriving DecidableEq, Repr

/-- The validator list account contents. -/
structure ValidatorStakeList where
  version : Nat
  validators : List ValidatorStakeInfo
  deriving DecidableEq, Repr

/-- `stake::StakeState`: the deserialized state of a stake account; the
processor only distinguishes the `Stake` variant (whose delegation carries the
voter pubkey) from the rest. -/
inductive StakeState where
  | uninitialized
  | initializedState
  | stakeDelegated (voterPubkey : Pubkey)
  | rewardsPool
  deriving DecidableEq, Repr

/-- A spl-token `Mint` as the processor reads it (`supply` is the only field
`process_add_liquidity` uses). -/
structure TokenMint where
  supply : Nat
  deriving DecidableEq, Repr

/-- A spl-token `Account` as the processor reads it. -/
structure TokenAccount where
  mint : Pubkey
  amount : Nat
  deriving DecidableEq, Repr

/-- An account handle as a handler sees it: its address, its owner program,
its lamport balance, and its data, represented per use site (`data` below). -/
structure AccountMeta (α : Type) where
  key : Pubkey
  owner : Pubkey
  lamports : Nat
  data : α
  deriving DecidableEq, Repr

/-- Authority roles: the two seed suffixes `AUTHORITY_DEPOSIT` (`b"deposit"`)
and `AUTHORITY_WITHDRAW` (`b"withdraw"`). -/
inductive AuthorityType where
  | deposit
  | withdraw
  deriving DecidableEq, Repr

/-- The SHA-256–based program-address derivations of `processor.rs`
(`authority_id` via `create_program_address`, and
`find_stake_address_for_validator` via `find_program_address`), modelled as
abstract functions: the processor only compares their outputs for equality.
`authorityId` returns `none` when `create_program_address` fails. -/
structure Deriver where
  authorityId : Pubkey → Pubkey → AuthorityType → Nat → Option Pubkey
  findStakeAddressForValidator : Pubkey → Pubkey → Pubkey → Pubkey

/-- `Processor::authority_id`: derives the authority address, mapping a
derivation failure to `InvalidProgramAddress`. -/
def authority_id (d : Deriver) (programId stakePool : Pubkey)
    (authorityType : AuthorityType) (bumpSeed : Nat) : Except ProgramError Pubkey :=
  match d.authorityId programId stakePool authorityType bumpSeed with
  | some k => .ok k
  | none => .error (.custom .invalidProgramAddress)

/-- `Processor::check_authority`: recompute the authority address and compare;
mismatch is `InvalidProgramAddress`. -/
def check_authority (d : Deriver) (authorityToCheck : Pubkey)
    (programId stakePoolKey : Pubkey) (authorityType : AuthorityType)
    (bumpSeed : Nat) : Except ProgramError Unit :=
  match authority_id d programId stakePoolKey authorityType bumpSeed with
  | .error e => .error e
  | .ok k => if authorityToCheck ≠ k then .error (.custom .invalidProgramAddress) else .ok ()

/-- Modelled from the spec: `StakePool::is_initialized` lives in `state.rs`,
absent from `src/`.  §4.4 gives `isInitialized()`; `process_initialize` sets
`version = PROGRAM_VERSION` (1, from `lib.rs`) on a pool that must not already
be initialized, so an initialized pool is one with a nonzero version. -/
def StakePool.isInitialized (p : StakePool) : Bool :=
  p.version ≠ 0

/-- Modelled from the spec: `StakePool::check_owner` lives in `state.rs`,
absent from `src/`.  §4.4: fails `WrongOwner`/`SignatureMissing` unless the
handle is a verified signer matching `owner`. -/
def StakePool.check_owner (p : StakePool) (ownerKey : Pubkey)
    (ownerIsSigner : Bool) : Except ProgramError Unit :=
  if ownerKey ≠ p.owner then .error (.custom .wrongOwner)
  else if !ownerIsSigner then .error (.custom .signatureMissing)
  else .ok ()

/-- Modelled from the spec: `StakePool::check_authority_withdraw` lives in
`state.rs`, absent from `src/`.  §4.4: delegates to the Deriver using the
stored bump seed. -/
def StakePool.check_authority_withdraw (p : StakePool) (d : Deriver)
    (candidate programId stakePoolKey : Pubkey) : Except ProgramError Unit :=
  check_authority d candidate programId stakePoolKey .withdraw p.withdrawBumpSeed

/-- Modelled from the spec: `StakePool::check_authority_deposit` lives in
`state.rs`, absent from `src/`.  §4.4: delegates to the Deriver using the
stored bump seed. -/
def StakePool.check_authority_deposit (p : StakePool) (d : Deriver)
    (candidate programId stakePoolKey : Pubkey) : Except ProgramError Unit :=
  check_authority d candidate programId stakePoolKey .deposit p.depositBumpSeed

/-- Modelled from the spec: `StakePool::calc_pool_deposit_amount` lives in
`state.rs`, absent from `src/`.  §4.2/§8: `stakeToShares =
floor(nativeAmount * pool_total / stake_total)` with a 128-bit intermediate,
fatal overflow, and the identity conversion when the denominator
(`stake_total`, the pre-first-deposit state) is zero — exactly the
`proportional` helper of `processor.rs`. -/
def StakePool.calc_pool_deposit_amount (p : StakePool) (stakeLamports : Nat) :
    Option Nat :=
  proportional stakeLamports p.poolTotal p.stakeTotal

/-- Modelled from the spec: `StakePool::calc_pool_withdraw_amount` lives in
`state.rs`, absent from `src/`.  §4.2: `sharesToStake is the inverse ratio`,
so the shares corresponding to a native amount also use
`floor(nativeAmount * pool_total / stake_total)`. -/
def StakePool.calc_pool_withdraw_amount (p : StakePool) (stakeLamports : Nat) :
    Option Nat :=
  proportional stakeLamports p.poolTotal p.stakeTotal

/-- Modelled from the spec: `StakePool::calc_lamports_amount` lives in
`state.rs`, absent from `src/`.  §4.2: converts shares back to native value,
`floor(shareAmount * stake_total / pool_total)` with the same 128-bit
intermediate and zero-denominator identity. -/
def StakePool.calc_lamports_amount (p : StakePool) (poolAmount : Nat) :
    Option Nat :=
  proportional poolAmount p.stakeTotal p.poolTotal

/-- Modelled from the spec: `StakePool::calc_fee_amount` lives in `state.rs`,
absent from `src/`.  §4.2: `feeAmount = floor(shareAmount * fee.numerator /
fee.denominator)` with a 128-bit intermediate; §7 classifies both overflow and
div-by-zero as `CalculationFailure`, so a zero fee denominator yields no
value. -/
def StakePool.calc_fee_amount (p : StakePool) (poolAmount : Nat) : Option Nat :=
  if p.fee.denominator = 0 then none
  else if poolAmount * p.fee.numerator < U128_MOD then
    if poolAmount * p.fee.numerator / p.fee.denominator < U64_MOD then
      some (poolAmount * p.fee.numerator / p.fee.denominator)
    else none
  else none

/-- Modelled from the spec: `ValidatorStakeList::is_initialized` lives in
`state.rs`, absent from `src/`.  `process_initialize` stamps a nonzero
`VALIDATOR_STAKE_LIST_VERSION` on a list that must not already be
initialized. -/
def ValidatorStakeList.isInitialized (l : ValidatorStakeList) : Bool :=
  l.version ≠ 0

/-- Modelled from the spec: `ValidatorStakeList::contains` lives in
`state.rs`, absent from `src/`.  §4.3: `contains(id)` — whether some entry
records the given validator. -/
def ValidatorStakeList.containsValidator (l : ValidatorStakeList)
    (v : Pubkey) : Bool :=
  l.validators.any (fun i => i.validatorAccount = v)

/-- Modelled from the spec: `ValidatorStakeList::find_mut` lives in
`state.rs`, absent from `src/`.  §4.3: `findMut(id)` — the first entry for the
given validator, if any. -/
def ValidatorStakeList.findValidator (l : ValidatorStakeList) (v : Pubkey) :
    Option ValidatorStakeInfo :=
  l.validators.find? (fun i => i.validatorAccount = v)

/-- In-place mutation through `find_mut`: replace the first entry for `v` by
`f` applied to it (used where `process_deposit`/`process_withdraw` assign
`validator_list_item.balance`). -/
def updateFirstValidator (f : ValidatorStakeInfo → ValidatorStakeInfo) (v : Pubkey) :
    List ValidatorStakeInfo → List ValidatorStakeInfo
  | [] => []
  | i :: rest =>
    if i.validatorAccount = v then f i :: rest
    else i :: updateFirstValidator f v rest

/-- `Processor::get_validator`: deserializing the stake account may fail
(`InvalidAccountData`); a `Stake` state yields the delegation's voter pubkey;
anything else is `WrongStakeState`.  The account data is `none` when `bincode`
deserialization fails. -/
def get_validator (stakeData : Option StakeState) : Except ProgramError Pubkey :=
  match stakeData with
  | none => .error .invalidAccountData
  | some (.stakeDelegated voter) => .ok voter
  | some _ => .error (.custom .wrongStakeState)

/-- `Processor::is_validator_stake_address`: the stake account key must equal
the derived (validator, pool) stake address. -/
def is_validator_stake_address (d : Deriver) (validatorAccount programId : Pubkey)
    (stakePoolKey stakeAccountKey : Pubkey) : Bool :=
  d.findStakeAddressForValidator programId validatorAccount stakePoolKey = stakeAccountKey

/-- `Processor::get_validator_checked`: read the validator from the stake
account and verify the stake account address derivation. -/
def get_validator_checked (d : Deriver) (programId stakePoolKey : Pubkey)
    (stakeAccountKey : Pubkey) (stakeData : Option StakeState) :
    Except ProgramError Pubkey :=
  match get_validator stakeData with
  | .error e => .error e
  | .ok validatorAccount =>
    if !is_validator_stake_address d validatorAccount programId stakePoolKey stakeAccountKey then
      .error (.custom .invalidStakeAccountAddress)
    else .ok validatorAccount

/-- The fixed id of the stake program (`stake::id()`), an arbitrary
distinguished key in this embedding. -/
def STAKE_PROGRAM_ID : Pubkey := 1

/-- `Processor::check_stake_activation`: the whole body is commented out in
`processor.rs` (a documented no-op), so it returns `Ok(())` for every input.
The stake-history sysvar is modelled as an opaque list of entries. -/
def check_stake_activation (_stakeData : Option StakeState) (_clockEpoch : Nat)
    (_stakeHistory : List (Nat × Nat × Nat)) : Except ProgramError Unit :=
  .ok ()

/-- `Processor::unpack_token_account`: the account must be owned by the given
token program id (`IncorrectTokenProgramId`), and its data must parse
(`ExpectedAccount`). -/
def unpack_token_account (accountOwner : Pubkey) (accountData : Option TokenAccount)
    (tokenProgramId : Pubkey) : Except StakePoolError TokenAccount :=
  if accountOwner ≠ tokenProgramId then .error .incorrectTokenProgramId
  else
    match accountData with
    | some a => .ok a
    | none => .error .expectedAccount

/-- `Processor::unpack_mint`: the account must be owned by the given token
program id (`IncorrectTokenProgramId`), and its data must parse
(`ExpectedMint`). -/
def unpack_mint (accountOwner : Pubkey) (accountData : Option TokenMint)
    (tokenProgramId : Pubkey) : Except StakePoolError TokenMint :=
  if accountOwner ≠ tokenProgramId then .error .incorrectTokenProgramId
  else
    match accountData with
    | some m => .ok m
    | none => .error .expectedMint

/-- Rust release-mode `u64` wrapping subtraction (`-=` on the totals). -/
def u64Sub (a b : Nat) : Nat := (a + U64_MOD - b % U64_MOD) % U64_MOD

/-- Account inputs of `process_update_list_balance` beyond the validator list:
each trailing account contributes its lamports and its deserialized stake
state (`none` when deserialization fails). -/
structure StakeAccountInput where
  lamports : Nat
  data : Option StakeState
  deriving DecidableEq, Repr

/-- Result of `process_update_list_balance`: the persisted list contents and
whether the handler wrote (serialized) the account at all. -/
structure UpdateListResult where
  vlist : ValidatorStakeList
  written : Bool
  deriving DecidableEq, Repr

/-- The inner `for` loop of `process_update_list_balance` for one stale
record: walk the (stake-account, validator) pairs in order; a pair whose
validator could not be read is `WrongStakeState`; a matching pair overwrites
the record's epoch and balance and raises the `changes` flag. -/
def updateListRecordLoop (clockEpoch : Nat) :
    List (Nat × Option Pubkey) → ValidatorStakeInfo → Bool →
    Except ProgramError (ValidatorStakeInfo × Bool)
  | [], r, changes => .ok (r, changes)
  | (lam, vOpt) :: rest, r, changes =>
    match vOpt with
    | none => .error (.custom .wrongStakeState)
    | some v =>
      if r.validatorAccount ≠ v then updateListRecordLoop clockEpoch rest r changes
      else updateListRecordLoop clockEpoch rest
        { r with lastUpdateEpoch := clockEpoch, balance := lam } true

/-- The outer loop of `process_update_list_balance`: records whose
`last_update_epoch >= clock.epoch` are skipped (`continue`); stale records run
the inner loop. -/
def updateListLoop (clockEpoch : Nat) (pairs : List (Nat × Option Pubkey)) :
    List ValidatorStakeInfo → Bool →
    Except ProgramError (List ValidatorStakeInfo × Bool)
  | [], changes => .ok ([], changes)
  | r :: rest, changes =>
    if clockEpoch ≤ r.lastUpdateEpoch then
      match updateListLoop clockEpoch pairs rest changes with
      | .error e => .error e
      | .ok (rs, c) => .ok (r :: rs, c)
    else
      match updateListRecordLoop clockEpoch pairs r changes with
      | .error e => .error e
      | .ok (r', c') =>
        match updateListLoop clockEpoch pairs rest c' with
        | .error e => .error e
        | .ok (rs, c'') => .ok (r' :: rs, c'')

/-- `Processor::process_update_list_balance`: requires an initialized list;
maps `get_validator(..).ok()` over the supplied stake accounts; refreshes
stale records; serializes only if something changed. -/
def process_update_list_balance (clockEpoch : Nat) (vlist : ValidatorStakeList)
    (stakeAccounts : List StakeAccountInput) :
    Except ProgramError UpdateListResult :=
  if !vlist.isInitialized then .error (.custom .invalidState)
  else
    match updateListLoop clockEpoch
        (stakeAccounts.map fun a => (a.lamports, (get_validator a.data).toOption))
        vlist.validators false with
    | .error e => .error e
    | .ok (rs, changes) =>
      .ok ⟨if changes then { vlist with validators := rs } else vlist, changes⟩

/-- The accumulation loop of `process_update_pool_balance`: any stale record
aborts with `StakeListOutOfDate`; otherwise the `u64` accumulator wraps. -/
def updatePoolBalanceLoop (clockEpoch : Nat) :
    List ValidatorStakeInfo → Nat → Except ProgramError Nat
  | [], totalBalance => .ok totalBalance
  | r :: rest, totalBalance =>
    if r.lastUpdateEpoch < clockEpoch then .error (.custom .stakeListOutOfDate)
    else updatePoolBalanceLoop clockEpoch rest ((totalBalance + r.balance) % U64_MOD)

/-- `Processor::process_update_pool_balance`: initialized pool, matching list
account, initialized list; recomputes `stake_total` as the sum of record
balances and stamps the clock epoch. -/
def process_update_pool_balance (validatorStakeListKey : Pubkey)
    (clockEpoch : Nat) (pool : StakePool) (vlist : ValidatorStakeList) :
    Except ProgramError StakePool :=
  if !pool.isInitialized then .error (.custom .invalidState)
  else if validatorStakeListKey ≠ pool.validatorStakeList then
    .error (.custom .invalidValidatorStakeList)
  else if !vlist.isInitialized then .error (.custom .invalidState)
  else
    match updatePoolBalanceLoop clockEpoch vlist.validators 0 with
    | .error e => .error e
    | .ok totalBalance =>
      .ok { pool with stakeTotal := totalBalance, lastUpdateEpoch := clockEpoch }

/-- Account inputs of `process_add_validator_stake_account`, in the order the
handler reads them. -/
structure AddValidatorAccounts where
  stakePoolKey : Pubkey
  ownerKey : Pubkey
  ownerIsSigner : Bool
  depositKey : Pubkey
  withdrawKey : Pubkey
  validatorStakeListKey : Pubkey
  stakeAccountKey : Pubkey
  stakeAccountLamports : Nat
  stakeAccountData : Option StakeState
  destUserKey : Pubkey
  poolMintKey : Pubkey
  clockEpoch : Nat
  stakeHistory : List (Nat × Nat × Nat)
  tokenProgramKey : Pubkey
  stakeProgramKey : Pubkey
  deriving Repr

/-- Result of `process_add_validator_stake_account`: the persisted pool and
list plus the single `token_mint_to` invocation the handler issues. -/
structure AddValidatorResult where
  pool : StakePool
  vlist : ValidatorStakeList
  mintedTo : Pubkey
  mintedAmount : Nat
  deriving Repr

/-- `Processor::process_add_validator_stake_account`, checks and effects in
source order.  The two `stake_authorize` invocations and the mint are external
calls; the minted amount and destination are recorded in the result. -/
def process_add_validator_stake_account (d : Deriver) (programId : Pubkey)
    (a : AddValidatorAccounts) (pool : StakePool) (vlist : ValidatorStakeList) :
    Except ProgramError AddValidatorResult :=
  if a.stakeProgramKey ≠ STAKE_PROGRAM_ID then .error .incorrectProgramId
  else if !pool.isInitialized then .error (.custom .invalidState)
  else
    match pool.check_authority_withdraw d a.withdrawKey programId a.stakePoolKey with
    | .error e => .error e
    | .ok _ =>
      match pool.check_authority_deposit d a.depositKey programId a.stakePoolKey with
      | .error e => .error e
      | .ok _ =>
        match pool.check_owner a.ownerKey a.ownerIsSigner with
        | .error e => .error e
        | .ok _ =>
          if pool.lastUpdateEpoch < a.clockEpoch then
            .error (.custom .stakeListAndPoolOutOfDate)
          else if pool.tokenProgramId ≠ a.tokenProgramKey then .error .incorrectProgramId
          else if pool.poolMint ≠ a.poolMintKey then .error (.custom .wrongPoolMint)
          else if a.validatorStakeListKey ≠ pool.validatorStakeList then
            .error (.custom .invalidValidatorStakeList)
          else if !vlist.isInitialized then .error (.custom .invalidState)
          else
            match get_validator_checked d programId a.stakePoolKey a.stakeAccountKey
                a.stakeAccountData with
            | .error e => .error e
            | .ok validatorAccount =>
              if vlist.containsValidator validatorAccount then
                .error (.custom .validatorAlreadyAdded)
              else
                match pool.calc_pool_deposit_amount a.stakeAccountLamports with
                | none => .error (.custom .calculationFailure)
                | some tokenAmount =>
                  match check_stake_activation a.stakeAccountData a.clockEpoch
                      a.stakeHistory with
                  | .error e => .error e
                  | .ok _ =>
                    .ok { pool := { pool with
                            poolTotal := (pool.poolTotal + tokenAmount) % U64_MOD,
                            stakeTotal := (pool.stakeTotal + a.stakeAccountLamports) % U64_MOD },
                          vlist := { vlist with
                            validators := vlist.validators ++
                              [⟨validatorAccount, a.stakeAccountLamports, a.clockEpoch⟩] },
                          mintedTo := a.destUserKey,
                          mintedAmount := tokenAmount }

/-- Account inputs of `process_remove_validator_stake_account`. -/
structure RemoveValidatorAccounts where
  stakePoolKey : Pubkey
  ownerKey : Pubkey
  ownerIsSigner : Bool
  withdrawKey : Pubkey
  newStakeAuthorityKey : Pubkey
  validatorStakeListKey : Pubkey
  stakeAccountKey : Pubkey
  stakeAccountLamports : Nat
  stakeAccountData : Option StakeState
  burnFromKey : Pubkey
  poolMintKey : Pubkey
  clockEpoch : Nat
  tokenProgramKey : Pubkey
  stakeProgramKey : Pubkey
  deriving Repr

/-- Result of `process_remove_validator_stake_account`. -/
structure RemoveValidatorResult where
  pool : StakePool
  vlist : ValidatorStakeList
  burnedFrom : Pubkey
  burnedAmount : Nat
  deriving Repr

/-- `Processor::process_remove_validator_stake_account`, checks and effects in
source order.  `retain` drops every record of the removed validator. -/
def process_remove_validator_stake_account (d : Deriver) (programId : Pubkey)
    (a : RemoveValidatorAccounts) (pool : StakePool) (vlist : ValidatorStakeList) :
    Except ProgramError RemoveValidatorResult :=
  if a.stakeProgramKey ≠ STAKE_PROGRAM_ID then .error .incorrectProgramId
  else if !pool.isInitialized then .error (.custom .invalidState)
  else
    match pool.check_authority_withdraw d a.withdrawKey programId a.stakePoolKey with
    | .error e => .error e
    | .ok _ =>
      match pool.check_owner a.ownerKey a.ownerIsSigner with
      | .error e => .error e
      | .ok _ =>
        if pool.lastUpdateEpoch < a.clockEpoch then
          .error (.custom .stakeListAndPoolOutOfDate)
        else if pool.tokenProgramId ≠ a.tokenProgramKey then .error .incorrectProgramId
        else if pool.poolMint ≠ a.poolMintKey then .error (.custom .wrongPoolMint)
        else if a.validatorStakeListKey ≠ pool.validatorStakeList then
          .error (.custom .invalidValidatorStakeList)
        else if !vlist.isInitialized then .error (.custom .invalidState)
        else
          match get_validator_checked d programId a.stakePoolKey a.stakeAccountKey
              a.stakeAccountData with
          | .error e => .error e
          | .ok validatorAccount =>
            if !vlist.containsValidator validatorAccount then
              .error (.custom .validatorNotFound)
            else
              match pool.calc_pool_withdraw_amount a.stakeAccountLamports with
              | none => .error (.custom .calculationFailure)
              | some tokenAmount =>
                .ok { pool := { pool with
                        poolTotal := u64Sub pool.poolTotal tokenAmount,
                        stakeTotal := u64Sub pool.stakeTotal a.stakeAccountLamports },
                      vlist := { vlist with
                        validators := vlist.validators.filter
                          (fun item => item.validatorAccount ≠ validatorAccount) },
                      burnedFrom := a.burnFromKey,
                      burnedAmount := tokenAmount }

/-- Account inputs of `process_deposit`.  `stakeLamports`/`stakeData` belong
to the user's stake account being joined; the `validatorStakeAccount*` fields
belong to the pool's stake account for the target validator (the merge
destination). -/
structure DepositAccounts where
  stakePoolKey : Pubkey
  validatorStakeListKey : Pubkey
  depositKey : Pubkey
  withdrawKey : Pubkey
  stakeLamports : Nat
  stakeData : Option StakeState
  validatorStakeAccountKey : Pubkey
  validatorStakeAccountLamports : Nat
  validatorStakeAccountData : Option StakeState
  destUserKey : Pubkey
  ownerFeeKey : Pubkey
  poolMintKey : Pubkey
  clockEpoch : Nat
  stakeHistory : List (Nat × Nat × Nat)
  tokenProgramKey : Pubkey
  stakeProgramKey : Pubkey
  deriving Repr

/-- Result of `process_deposit`: the persisted pool and list plus the two
`token_mint_to` invocations the handler issues. -/
structure DepositResult where
  pool : StakePool
  vlist : ValidatorStakeList
  userMintTo : Pubkey
  userMintAmount : Nat
  feeMintTo : Pubkey
  feeMintAmount : Nat
  deriving Repr

/-- `Processor::process_deposit`, checks and effects in source order.  The
`stake_merge` invocation drains the user's stake account into the validator's
pooled account, so the balance written back to the list record (read from
`validator_stake_account_info.lamports` after the merge) is the pre-merge
balance plus the deposited lamports, wrapping as `u64`. -/
def process_deposit (d : Deriver) (programId : Pubkey) (a : DepositAccounts)
    (pool : StakePool) (vlist : ValidatorStakeList) :
    Except ProgramError DepositResult :=
  if a.stakeProgramKey ≠ STAKE_PROGRAM_ID then .error .incorrectProgramId
  else if !pool.isInitialized then .error (.custom .invalidState)
  else
    match check_stake_activation a.stakeData a.clockEpoch a.stakeHistory with
    | .error e => .error e
    | .ok _ =>
      match pool.check_authority_withdraw d a.withdrawKey programId a.stakePoolKey with
      | .error e => .error e
      | .ok _ =>
        match pool.check_authority_deposit d a.depositKey programId a.stakePoolKey with
        | .error e => .error e
        | .ok _ =>
          if pool.ownerFeeAccount ≠ a.ownerFeeKey then .error (.custom .invalidFeeAccount)
          else if pool.tokenProgramId ≠ a.tokenProgramKey then .error .incorrectProgramId
          else if a.validatorStakeListKey ≠ pool.validatorStakeList then
            .error (.custom .invalidValidatorStakeList)
          else if pool.lastUpdateEpoch < a.clockEpoch then
            .error (.custom .stakeListAndPoolOutOfDate)
          else if !vlist.isInitialized then .error (.custom .invalidState)
          else
            match get_validator_checked d programId a.stakePoolKey
                a.validatorStakeAccountKey a.validatorStakeAccountData with
            | .error e => .error e
            | .ok validatorAccount =>
              if (vlist.findValidator validatorAccount).isNone then
                .error (.custom .validatorNotFound)
              else
                match pool.calc_pool_deposit_amount a.stakeLamports with
                | none => .error (.custom .calculationFailure)
                | some poolAmount =>
                  match pool.calc_fee_amount poolAmount with
                  | none => .error (.custom .calculationFailure)
                  | some feeAmount =>
                    if poolAmount < feeAmount then .error (.custom .calculationFailure)
                    else
                      .ok { pool := { pool with
                              poolTotal := (pool.poolTotal + poolAmount) % U64_MOD,
                              stakeTotal := (pool.stakeTotal + a.stakeLamports) % U64_MOD },
                            vlist := { vlist with
                              validators := updateFirstValidator
                                (fun item => { item with
                                  balance := (a.validatorStakeAccountLamports +
                                    a.stakeLamports) % U64_MOD })
                                validatorAccount vlist.validators },
                            userMintTo := a.destUserKey,
                            userMintAmount := poolAmount - feeAmount,
                            feeMintTo := a.ownerFeeKey,
                            feeMintAmount := feeAmount }

/-- Account inputs of `process_withdraw`. -/
structure WithdrawAccounts where
  stakePoolKey : Pubkey
  validatorStakeListKey : Pubkey
  withdrawKey : Pubkey
  stakeSplitFromKey : Pubkey
  stakeSplitFromLamports : Nat
  stakeSplitFromData : Option StakeState
  stakeSplitToKey : Pubkey
  userStakeAuthorityKey : Pubkey
  burnFromKey : Pubkey
  poolMintKey : Pubkey
  clockEpoch : Nat
  tokenProgramKey : Pubkey
  stakeProgramKey : Pubkey
  deriving Repr

/-- Result of `process_withdraw`: the persisted pool and list plus the split
and burned amounts. -/
structure WithdrawResult where
  pool : StakePool
  vlist : ValidatorStakeList
  burnedFrom : Pubkey
  burnedAmount : Nat
  splitAmount : Nat
  deriving Repr

/-- `Processor::process_withdraw`, checks and effects in source order.  The
`stake_split` invocation moves `stake_amount` lamports out of the validator's
pooled account, so the balance written back to the list record (read from
`stake_split_from.lamports` after the split) is the pre-split balance minus
that amount, wrapping as `u64`. -/
def process_withdraw (d : Deriver) (programId : Pubkey) (poolAmount : Nat)
    (a : WithdrawAccounts) (pool : StakePool) (vlist : ValidatorStakeList) :
    Except ProgramError WithdrawResult :=
  if a.stakeProgramKey ≠ STAKE_PROGRAM_ID then .error .incorrectProgramId
  else if !pool.isInitialized then .error (.custom .invalidState)
  else
    match pool.check_authority_withdraw d a.withdrawKey programId a.stakePoolKey with
    | .error e => .error e
    | .ok _ =>
      if pool.tokenProgramId ≠ a.tokenProgramKey then .error .incorrectProgramId
      else if a.validatorStakeListKey ≠ pool.validatorStakeList then
        .error (.custom .invalidValidatorStakeList)
      else if pool.lastUpdateEpoch < a.clockEpoch then
        .error (.custom .stakeListAndPoolOutOfDate)
      else if !vlist.isInitialized then .error (.custom .invalidState)
      else
        match get_validator_checked d programId a.stakePoolKey a.stakeSplitFromKey
            a.stakeSplitFromData with
        | .error e => .error e
        | .ok validatorAccount =>
          if (vlist.findValidator validatorAccount).isNone then
            .error (.custom .validatorNotFound)
          else
            match pool.calc_lamports_amount poolAmount with
            | none => .error (.custom .calculationFailure)
            | some stakeAmount =>
              .ok { pool := { pool with
                      poolTotal := u64Sub pool.poolTotal poolAmount,
                      stakeTotal := u64Sub pool.stakeTotal stakeAmount },
                    vlist := { vlist with
                      validators := updateFirstValidator
                        (fun item => { item with
                          balance := u64Sub a.stakeSplitFromLamports stakeAmount })
                        validatorAccount vlist.validators },
                    burnedFrom := a.burnFromKey,
                    burnedAmount := poolAmount,
                    splitAmount := stakeAmount }

/-- Account inputs of `process_add_liquidity` (the handler never validates the
remaining keys, so only the two unpacked token accounts carry data). -/
structure AddLiquidityAccounts where
  stakePoolKey : Pubkey
  tokenProgramKey : Pubkey
  metalpMintOwner : Pubkey
  metalpMintData : Option TokenMint
  metalpMintWithdrawAuthorityKey : Pubkey
  userWsolSourceKey : Pubkey
  userTransferAuthorityKey : Pubkey
  liqPoolWsolOwner : Pubkey
  liqPoolWsolData : Option TokenAccount
  userMetalpDestKey : Pubkey
  deriving Repr

/-- Result of `process_add_liquidity`: the `token_transfer` of the reserve
asset into the pool (issued first) and the LP-share `token_mint_to` (issued
second). -/
structure AddLiquidityResult where
  transferredToPool : Nat
  mintedToUser : Nat
  deriving DecidableEq, Repr

/-- `Processor::process_add_liquidity`, checks and effects in source order:
zero amount, pool initialization, `unpack_mint(metalp mint, program_id)`,
`unpack_token_account(liq-pool wsol account, program_id)` — both against the
stake-pool program id, not the token program — then the wsol transfer, then
`shares_from_value` with the pre-transfer reserve balance, then the mint. -/
def process_add_liquidity (programId : Pubkey) (wsolAmount : Nat)
    (a : AddLiquidityAccounts) (pool : StakePool) :
    Except ProgramError AddLiquidityResult :=
  if wsolAmount = 0 then .error (.custom .zeroAmount)
  else if !pool.isInitialized then .error (.custom .invalidState)
  else
    match unpack_mint a.metalpMintOwner a.metalpMintData programId with
    | .error e => .error (.custom e)
    | .ok metalpMintInfo =>
      match unpack_token_account a.liqPoolWsolOwner a.liqPoolWsolData programId with
      | .error e => .error (.custom e)
      | .ok ourWsolTokenInfo =>
        match shares_from_value wsolAmount ourWsolTokenInfo.amount
            metalpMintInfo.supply with
        | none => .error (.custom .calculationFailure)
        | some metalpAmount =>
          .ok { transferredToPool := wsolAmount, mintedToUser := metalpAmount }

/-- Modelled from the spec: the instruction opcode set.  `instruction.rs` is
absent from `src/`; spec §6 lists twelve opcodes, including `Sell(amount)`. -/
inductive Opcode where
  | initializeOp
  | createValidatorStakeAccount
  | addValidatorStakeAccount
  | removeValidatorStakeAccount
  | updateListBalance
  | updatePoolBalance
  | deposit
  | withdraw
  | setStakingAuthority
  | setOwner
  | addLiquidity
  | sell
  deriving DecidableEq, Repr, BEq

/-- The opcodes dispatched by `Processor::process` in
`src/program/src/processor.rs` (the `match` at lines 1465–1510): exactly these
eleven arms, in source order. -/
def handledOpcodes : List Opcode :=
  [.initializeOp, .createValidatorStakeAccount, .addValidatorStakeAccount,
   .removeValidatorStakeAccount, .updateListBalance, .updatePoolBalance,
   .deposit, .withdraw, .setStakingAuthority, .setOwner, .addLiquidity]

/-! ## Theorems -/

/-- C5 counterexample: `proportional` is *not* total on the 64-bit-fitting
range.  At `amount = 2^63` (a valid `u64`), `numerator = 2^66`,
`denominator = 2^70`, the exact quotient `2^59` fits in 64 bits, yet the
128-bit intermediate `2^63 * 2^66 = 2^129` overflows and `proportional`
returns no value. -/
theorem proportional_overflow_counterexample :
    proportional (2 ^ 63) (2 ^ 66) (2 ^ 70) = none ∧
    2 ^ 63 * 2 ^ 66 / 2 ^ 70 < U64_MOD ∧ 2 ^ 63 < U64_MOD := by
  refine ⟨?_, by norm_num [U64_MOD], by norm_num [U64_MOD]⟩
  norm_num [proportional, U128_MOD]

/-- C5 (amended): `proportional` returns `amount` itself when
`denominator = 0`; otherwise it returns exactly
`floor(amount * numerator / denominator)` whenever the 128-bit intermediate
product does not overflow *and* the quotient fits in 64 bits, and returns no
value otherwise — it never rounds up and never wraps. -/
theorem proportional_floor (amount numerator denominator : Nat) :
    proportional amount numerator 0 = some amount ∧
    (denominator ≠ 0 →
      proportional amount numerator denominator =
        if amount * numerator < U128_MOD ∧ amount * numerator / denominator < U64_MOD
        then some (amount * numerator / denominator)
        else none) := by
  constructor
  · simp [proportional]
  · intro hd
    by_cases h1 : amount * numerator < U128_MOD
    · by_cases h2 : amount * numerator / denominator < U64_MOD
      · simp [proportional, hd, h1, h2]
      · simp [proportional, hd, h1, h2]
    · simp [proportional, hd, h1]

/-- Witness for C5's amended theorem at `amount = 6`, `numerator = 10`,
`denominator = 4`: the zero-denominator identity and the floored quotient
`⌊60/4⌋ = 15`. -/
theorem proportional_floor_witness :
    proportional 6 10 0 = some 6 ∧ proportional 6 10 4 = some 15 := by
  refine ⟨(proportional_floor 6 10 4).1, ?_⟩
  rw [(proportional_floor 6 10 4).2 (by norm_num)]
  norm_num [U128_MOD, U64_MOD]

/-- C6: converting a native value to shares and the resulting shares back to
native value against the same positive totals never creates value: the
round trip through `shares_from_value` and `value_from_shares` is `≤` the
original amount. -/
theorem shares_roundtrip_le (v S P s w : Nat) (hS : 0 < S) (hP : 0 < P)
    (h1 : shares_from_value v S P = some s)
    (h2 : value_from_shares s S P = some w) : w ≤ v := by
  unfold shares_from_value proportional at h1
  rw [if_neg hS.ne'] at h1
  unfold value_from_shares proportional at h2
  rw [if_neg hP.ne'] at h2
  split at h1
  · split at h1
    · injection h1 with hs
      split at h2
      · split at h2
        · injection h2 with hw
          subst hs hw
          calc v * P / S * S / P
              ≤ v * P / P := Nat.div_le_div_right (Nat.div_mul_le_self (v * P) S)
            _ = v := Nat.mul_div_cancel v hP
        · simp at h2
      · simp at h2
    · simp at h1
  · simp at h1

/-- Witness for C6 at `v = 200`, totals `stake_total = 2000`,
`pool_total = 1000`: the round trip yields `200 ≤ 200`. -/
theorem shares_roundtrip_le_witness :
    shares_from_value 200 2000 1000 = some 100 ∧
    value_from_shares 100 2000 1000 = some 200 ∧ (200 : Nat) ≤ 200 :=
  ⟨by decide, by decide,
    shares_roundtrip_le 200 2000 1000 100 200 (by decide) (by decide)
      (by decide) (by decide)⟩

/-- C2: the dispatcher of `processor.rs` has no arm for a Sell opcode — it
handles exactly the eleven opcodes of `handledOpcodes`, and `Sell` is not
among them (the spec and the repository's own liquidity tests expect a
twelfth, Sell handler). -/
theorem sell_opcode_unhandled :
    handledOpcodes.contains Opcode.sell = false ∧ handledOpcodes.length = 11 := by
  decide

/-- Whether a handler result is exactly the `UserStakeNotActive` error (the
error the disabled activation check would produce). -/
def returnsUserStakeNotActive {α : Type} : Except ProgramError α → Bool
  | .error (.custom .userStakeNotActive) => true
  | _ => false

theorem check_authority_no_usna (d : Deriver) (c pid spk : Pubkey)
    (t : AuthorityType) (b : Nat) :
    returnsUserStakeNotActive (check_authority d c pid spk t b) = false := by
  unfold check_authority authority_id
  cases d.authorityId pid spk t b with
  | none => rfl
  | some k =>
    by_cases hc : c ≠ k
    · simp [hc, returnsUserStakeNotActive]
    · simp [hc, returnsUserStakeNotActive]

theorem check_authority_withdraw_no_usna (p : StakePool) (d : Deriver)
    (c pid spk : Pubkey) :
    returnsUserStakeNotActive (p.check_authority_withdraw d c pid spk) = false :=
  check_authority_no_usna d c pid spk .withdraw p.withdrawBumpSeed

theorem check_authority_deposit_no_usna (p : StakePool) (d : Deriver)
    (c pid spk : Pubkey) :
    returnsUserStakeNotActive (p.check_authority_deposit d c pid spk) = false :=
  check_authority_no_usna d c pid spk .deposit p.depositBumpSeed

theorem check_stake_activation_no_usna (sd : Option StakeState) (ce : Nat)
    (sh : List (Nat × Nat × Nat)) :
    returnsUserStakeNotActive (check_stake_activation sd ce sh) = false := rfl

theorem no_usna_propagate {α β : Type} {X : Except ProgramError α} {e : ProgramError}
    (hX : returnsUserStakeNotActive X = false) (heq : X = Except.error e) :
    returnsUserStakeNotActive (Except.error e : Except ProgramError β) = false := by
  subst heq
  cases e with
  | custom se => cases se <;> first | rfl | exact hX
  | incorrectProgramId => rfl
  | invalidAccountData => rfl

theorem check_owner_no_usna (p : StakePool) (k : Pubkey) (s : Bool) :
    returnsUserStakeNotActive (p.check_owner k s) = false := by
  unfold StakePool.check_owner
  split
  · rfl
  · split
    · rfl
    · rfl

theorem get_validator_checked_no_usna (d : Deriver) (pid spk sk : Pubkey)
    (sd : Option StakeState) :
    returnsUserStakeNotActive (get_validator_checked d pid spk sk sd) = false := by
  cases sd with
  | none => rfl
  | some s =>
    cases s with
    | uninitialized => rfl
    | initializedState => rfl
    | rewardsPool => rfl
    | stakeDelegated voter =>
      cases h : is_validator_stake_address d voter pid spk sk with
      | true => simp [get_validator_checked, get_validator, h, returnsUserStakeNotActive]
      | false => simp [get_validator_checked, get_validator, h, returnsUserStakeNotActive]

set_option maxHeartbeats 1000000 in
/-- C8: the stake-activation check is a no-op — `check_stake_activation`
returns `Ok` for every stake account, clock and stake-history input — and
consequently neither `process_deposit` nor
`process_add_validator_stake_account` can ever fail with
`UserStakeNotActive`: deposited stake is credited with shares without any
activation verification. -/
theorem stake_activation_disabled :
    (∀ sd ce sh, check_stake_activation sd ce sh = Except.ok ()) ∧
    (∀ d pid a pool vlist,
      returnsUserStakeNotActive (process_deposit d pid a pool vlist) = false) ∧
    (∀ d pid a pool vlist,
      returnsUserStakeNotActive
        (process_add_validator_stake_account d pid a pool vlist) = false) := by
  refine ⟨fun _ _ _ => rfl, ?_, ?_⟩
  · intro d pid a pool vlist
    unfold process_deposit
    repeat' split
    all_goals try rfl
    all_goals
      rename_i e heq
      first
        | exact no_usna_propagate (check_stake_activation_no_usna _ _ _) heq
        | exact no_usna_propagate (check_authority_withdraw_no_usna _ _ _ _ _) heq
        | exact no_usna_propagate (check_authority_deposit_no_usna _ _ _ _ _) heq
        | exact no_usna_propagate (check_owner_no_usna _ _ _) heq
        | exact no_usna_propagate (get_validator_checked_no_usna _ _ _ _ _) heq
  · intro d pid a pool vlist
    unfold process_add_validator_stake_account
    repeat' split
    all_goals try rfl
    all_goals
      rename_i e heq
      first
        | exact no_usna_propagate (check_stake_activation_no_usna _ _ _) heq
        | exact no_usna_propagate (check_authority_withdraw_no_usna _ _ _ _ _) heq
        | exact no_usna_propagate (check_authority_deposit_no_usna _ _ _ _ _) heq
        | exact no_usna_propagate (check_owner_no_usna _ _ _) heq
        | exact no_usna_propagate (get_validator_checked_no_usna _ _ _ _ _) heq

theorem unpack_mint_ok (o : Pubkey) (dat : Option TokenMint) (tp : Pubkey)
    (m : TokenMint) (h : unpack_mint o dat tp = .ok m) : o = tp ∧ dat = some m := by
  unfold unpack_mint at h
  split at h
  · exact Except.noConfusion h
  · refine ⟨not_not.mp (by assumption), ?_⟩
    split at h
    · injection h with h; rw [h]
    · exact Except.noConfusion h

theorem unpack_token_account_ok (o : Pubkey) (dat : Option TokenAccount)
    (tp : Pubkey) (w : TokenAccount) (h : unpack_token_account o dat tp = .ok w) :
    o = tp ∧ dat = some w := by
  unfold unpack_token_account at h
  split at h
  · exact Except.noConfusion h
  · refine ⟨not_not.mp (by assumption), ?_⟩
    split at h
    · injection h with h; rw [h]
    · exact Except.noConfusion h

theorem proportional_some (amount n den v : Nat)
    (h : proportional amount n den = some v) :
    v = if den = 0 then amount else amount * n / den := by
  unfold proportional at h
  split at h
  · rename_i hden
    rw [if_pos hden]
    injection h with h
    exact h.symm
  · rename_i hden
    rw [if_neg hden]
    split at h
    · split at h
      · injection h with h; exact h.symm
      · exact Option.noConfusion h
    · exact Option.noConfusion h

/-- C3 (amended): `process_add_liquidity` rejects a zero amount with
`ZeroAmount`; on success it transfers exactly `amount` of the reserve asset
and mints exactly `floor(amount * lpSupply / reserveBalance)` LP-shares when
the reserve balance read before the transfer is nonzero, and exactly `amount`
(identity) when that reserve balance is zero — the identity case is selected
by the reserve balance (the `proportional` denominator), not by
`lpSupply == 0` as the claim states. -/
theorem add_liquidity_shares :
    (∀ pid a pool,
      process_add_liquidity pid 0 a pool = .error (.custom .zeroAmount)) ∧
    (∀ pid amt a pool r, process_add_liquidity pid amt a pool = Except.ok r →
      amt ≠ 0 ∧ r.transferredToPool = amt ∧
      ∃ m w, a.metalpMintData = some m ∧ a.liqPoolWsolData = some w ∧
        r.mintedToUser = if w.amount = 0 then amt else amt * m.supply / w.amount) := by
  constructor
  · intro pid a pool
    unfold process_add_liquidity
    rw [if_pos rfl]
  · intro pid amt a pool r h
    unfold process_add_liquidity at h
    split at h
    · exact Except.noConfusion h
    · split at h
      · exact Except.noConfusion h
      · split at h
        · exact Except.noConfusion h
        · rename_i m hm
          split at h
          · exact Except.noConfusion h
          · rename_i w hw
            split at h
            · exact Except.noConfusion h
            · rename_i v hv
              injection h with h
              obtain ⟨-, hmd⟩ := unpack_mint_ok _ _ _ _ hm
              obtain ⟨-, hwd⟩ := unpack_token_account_ok _ _ _ _ hw
              refine ⟨by assumption, ?_, m, w, hmd, hwd, ?_⟩
              · rw [← h]
              · rw [← h]
                exact proportional_some _ _ _ _ hv

/-- Test fixture: an initialized pool with totals `pool_total = 1000`,
`stake_total = 2000`, fee `1/100`, owner 3, keys 20–23 for the list, mint,
fee account and token program, current epoch 5. -/
def testPool : StakePool :=
  { version := 1, owner := 3, depositBumpSeed := 255, withdrawBumpSeed := 254,
    validatorStakeList := 20, poolMint := 21, ownerFeeAccount := 22,
    tokenProgramId := 23, stakeTotal := 2000, poolTotal := 1000,
    lastUpdateEpoch := 5, fee := { denominator := 100, numerator := 1 } }

/-- Test fixture: AddLiquidity accounts whose LP mint (supply `supply`) and
wsol reserve (balance `reserve`) are both owned by program id 7. -/
def testALAccounts (supply reserve : Nat) : AddLiquidityAccounts :=
  { stakePoolKey := 50, tokenProgramKey := 23, metalpMintOwner := 7,
    metalpMintData := some { supply := supply },
    metalpMintWithdrawAuthorityKey := 52, userWsolSourceKey := 70,
    userTransferAuthorityKey := 71, liqPoolWsolOwner := 7,
    liqPoolWsolData := some { mint := 5, amount := reserve },
    userMetalpDestKey := 72 }

/-- C3 counterexample: with `lpSupply = 0` but a *nonzero* reserve balance of
500, AddLiquidity of 100 mints `floor(100 * 0 / 500) = 0` LP-shares, not the
100 the claim's `lpSupply == 0` identity case requires. -/
theorem add_liquidity_identity_counterexample :
    process_add_liquidity 7 100 (testALAccounts 0 500) testPool =
      Except.ok { transferredToPool := 100, mintedToUser := 0 } ∧
    ((0 : Nat) == 100) = false := by
  exact ⟨rfl, rfl⟩

/-- Witness for C3's amended theorem: the bootstrap identity (`reserve = 0`,
`supply = 0`, amount 500 mints 500) and the proportional case
(`reserve = 500`, `supply = 500`, amount 250 mints 250). -/
theorem add_liquidity_shares_witness :
    process_add_liquidity 7 0 (testALAccounts 0 0) testPool =
      .error (.custom .zeroAmount) ∧
    (250 : Nat) ≠ 0 ∧
    AddLiquidityResult.transferredToPool { transferredToPool := 250, mintedToUser := 250 } = 250 ∧
    ∃ m w, (testALAccounts 500 500).metalpMintData = some m ∧
      (testALAccounts 500 500).liqPoolWsolData = some w ∧
      AddLiquidityResult.mintedToUser { transferredToPool := 250, mintedToUser := 250 } =
        if w.amount = 0 then 250 else 250 * m.supply / w.amount := by
  refine ⟨add_liquidity_shares.1 7 (testALAccounts 0 0) testPool, ?_⟩
  exact add_liquidity_shares.2 7 250 (testALAccounts 500 500) testPool
    { transferredToPool := 250, mintedToUser := 250 } rfl

/-- Test fixture: AddLiquidity accounts whose LP mint is owned by the token
program (23) instead of the stake-pool program id 7. -/
def testALAccountsBadOwner : AddLiquidityAccounts :=
  { testALAccounts 0 500 with metalpMintOwner := 23 }

/-- C10 counterexample: a call with `amount = 0` whose LP-mint owner differs
from the program id fails with `ZeroAmount`, not with
`IncorrectTokenProgramId` as the claim requires for *any* call with a wrong
owner. -/
theorem add_liquidity_owner_counterexample :
    process_add_liquidity 7 0 testALAccountsBadOwner testPool =
      Except.error (.custom .zeroAmount) ∧
    ((ProgramError.custom .zeroAmount) ==
      (ProgramError.custom .incorrectTokenProgramId)) = false := by
  exact ⟨rfl, rfl⟩

/-- C10 (amended): AddLiquidity succeeds only when both the LP-mint account
and the asset-reserve token account are owned by the stake-pool program id
itself; for a call with nonzero amount and initialized pool, a wrong LP-mint
owner — or, once the LP mint unpacks, a wrong reserve owner — fails with
`IncorrectTokenProgramId`, and an error means no transfer or mint was
recorded. -/
theorem add_liquidity_owner_check :
    (∀ pid amt a pool r, process_add_liquidity pid amt a pool = Except.ok r →
      a.metalpMintOwner = pid ∧ a.liqPoolWsolOwner = pid) ∧
    (∀ pid amt a pool, amt ≠ 0 → pool.isInitialized = true →
      a.metalpMintOwner ≠ pid →
      process_add_liquidity pid amt a pool =
        .error (.custom .incorrectTokenProgramId)) ∧
    (∀ pid amt a pool, amt ≠ 0 → pool.isInitialized = true →
      a.metalpMintOwner = pid → a.metalpMintData.isSome = true →
      a.liqPoolWsolOwner ≠ pid →
      process_add_liquidity pid amt a pool =
        .error (.custom .incorrectTokenProgramId)) := by
  refine ⟨?_, ?_, ?_⟩
  · intro pid amt a pool r h
    unfold process_add_liquidity at h
    split at h
    · exact Except.noConfusion h
    · split at h
      · exact Except.noConfusion h
      · split at h
        · exact Except.noConfusion h
        · rename_i m hm
          split at h
          · exact Except.noConfusion h
          · rename_i w hw
            exact ⟨(unpack_mint_ok _ _ _ _ hm).1, (unpack_token_account_ok _ _ _ _ hw).1⟩
  · intro pid amt a pool hz hinit howner
    unfold process_add_liquidity
    rw [if_neg hz, if_neg (by simp [hinit])]
    simp [unpack_mint, howner]
  · intro pid amt a pool hz hinit howner hdata hwowner
    unfold process_add_liquidity
    rw [if_neg hz, if_neg (by simp [hinit])]
    obtain ⟨m, hm⟩ := Option.isSome_iff_exists.mp hdata
    simp [unpack_mint, unpack_token_account, howner, hm, hwowner]

/-- Witness for C10's amended theorem: the wrong-owner fixture with a nonzero
amount fails with `IncorrectTokenProgramId`, and a successful call has both
owners equal to the program id. -/
theorem add_liquidity_owner_check_witness :
    process_add_liquidity 7 100 testALAccountsBadOwner testPool =
      .error (.custom .incorrectTokenProgramId) ∧
    (testALAccounts 500 500).metalpMintOwner = 7 ∧
    (testALAccounts 500 500).liqPoolWsolOwner = 7 := by
  refine ⟨?_, ?_⟩
  · exact add_liquidity_owner_check.2.1 7 100 testALAccountsBadOwner testPool
      (by decide) (by decide) (by decide)
  · exact add_liquidity_owner_check.1 7 250 (testALAccounts 500 500) testPool
      { transferredToPool := 250, mintedToUser := 250 } rfl

/-- The exact (unwrapped) sum of the balances of a validator list. -/
def sumBalances (l : List ValidatorStakeInfo) : Nat :=
  (l.map (fun r => r.balance)).sum

theorem updatePoolBalanceLoop_error (epoch : Nat) (l : List ValidatorStakeInfo) :
    ∀ acc, (∃ r ∈ l, r.lastUpdateEpoch < epoch) →
      updatePoolBalanceLoop epoch l acc = .error (.custom .stakeListOutOfDate) := by
  induction l with
  | nil => intro acc h; simp at h
  | cons r rest ih =>
    intro acc h
    unfold updatePoolBalanceLoop
    by_cases hr : r.lastUpdateEpoch < epoch
    · rw [if_pos hr]
    · rw [if_neg hr]
      apply ih
      rcases h with ⟨x, hx, hlt⟩
      rcases List.mem_cons.mp hx with he | hm
      · exact absurd (he ▸ hlt) hr
      · exact ⟨x, hm, hlt⟩

theorem updatePoolBalanceLoop_ok_exists (epoch : Nat) (l : List ValidatorStakeInfo) :
    ∀ acc, (∀ r ∈ l, ¬ r.lastUpdateEpoch < epoch) →
      ∃ t, updatePoolBalanceLoop epoch l acc = .ok t := by
  induction l with
  | nil => intro acc _; exact ⟨acc, rfl⟩
  | cons r rest ih =>
    intro acc h
    unfold updatePoolBalanceLoop
    rw [if_neg (h r (List.mem_cons_self r rest))]
    exact ih _ (fun x hx => h x (List.mem_cons_of_mem r hx))

theorem updatePoolBalanceLoop_ok (epoch : Nat) (l : List ValidatorStakeInfo) :
    ∀ acc, (∀ r ∈ l, ¬ r.lastUpdateEpoch < epoch) →
      acc + sumBalances l < U64_MOD →
      updatePoolBalanceLoop epoch l acc = .ok (acc + sumBalances l) := by
  induction l with
  | nil => intro acc _ _; simp [updatePoolBalanceLoop, sumBalances]
  | cons r rest ih =>
    intro acc h hb
    have hsum : sumBalances (r :: rest) = r.balance + sumBalances rest := by
      simp [sumBalances]
    unfold updatePoolBalanceLoop
    rw [if_neg (h r (List.mem_cons_self r rest))]
    have hmod : (acc + r.balance) % U64_MOD = acc + r.balance :=
      Nat.mod_eq_of_lt (by rw [hsum] at hb; omega)
    rw [hmod, ih (acc + r.balance) (fun x hx => h x (List.mem_cons_of_mem r hx))
      (by rw [hsum] at hb; omega)]
    rw [hsum]
    congr 1
    omega

/-- C4: on an initialized pool and validator list, `UpdatePoolBalance` fails
with `StakeListOutOfDate` exactly when some validator record has
`last_update_epoch < currentEpoch` (returning no new state); otherwise —
including on an empty list — it sets `stake_total` to the exact sum of all
record balances (given that sum fits in a `u64`) and stamps
`last_update_epoch := currentEpoch`. -/
theorem update_pool_balance_spec (k : Pubkey) (epoch : Nat) (pool : StakePool)
    (vlist : ValidatorStakeList) (hinit : pool.isInitialized = true)
    (hkey : k = pool.validatorStakeList) (hlinit : vlist.isInitialized = true) :
    (process_update_pool_balance k epoch pool vlist =
        .error (.custom .stakeListOutOfDate) ↔
      ∃ r ∈ vlist.validators, r.lastUpdateEpoch < epoch) ∧
    ((∀ r ∈ vlist.validators, ¬ r.lastUpdateEpoch < epoch) →
      sumBalances vlist.validators < U64_MOD →
      process_update_pool_balance k epoch pool vlist =
        .ok { pool with
              stakeTotal := sumBalances vlist.validators,
              lastUpdateEpoch := epoch }) := by
  have hstep : process_update_pool_balance k epoch pool vlist =
      (match updatePoolBalanceLoop epoch vlist.validators 0 with
       | .error e => .error e
       | .ok totalBalance =>
         .ok { pool with stakeTotal := totalBalance, lastUpdateEpoch := epoch }) := by
    unfold process_update_pool_balance
    rw [if_neg (by simp [hinit]), if_neg (by simp [hkey]), if_neg (by simp [hlinit])]
  rw [hstep]
  constructor
  · constructor
    · intro herr
      by_contra hno
      push_neg at hno
      obtain ⟨t, ht⟩ := updatePoolBalanceLoop_ok_exists epoch vlist.validators 0
        (fun r hr => not_lt.mpr (hno r hr))
      rw [ht] at herr
      exact Except.noConfusion herr
    · intro hex
      rw [updatePoolBalanceLoop_error epoch vlist.validators 0 hex]
  · intro hall hsum
    rw [updatePoolBalanceLoop_ok epoch vlist.validators 0 hall (by simpa using hsum)]
    simp

/-- Test fixture: an initialized validator list with one record for
validator 9 with balance 500, refreshed at epoch 5. -/
def testVlist : ValidatorStakeList :=
  { version := 1, validators := [⟨9, 500, 5⟩] }

/-- Witness for C4 on `testPool`/`testVlist` at epoch 5: no record is stale,
so the handler succeeds, recomputing `stake_total` as the sum 500 and
stamping epoch 5. -/
theorem update_pool_balance_spec_witness :
    process_update_pool_balance 20 5 testPool testVlist =
      .ok { testPool with
            stakeTotal := sumBalances testVlist.validators,
            lastUpdateEpoch := 5 } :=
  (update_pool_balance_spec 20 5 testPool testVlist rfl rfl rfl).2
    (by decide) (by decide)

/-- The per-record refresh contract of `UpdateListBalance`: an up-to-date
record is left unchanged, and a record that changed at all was stale, kept its
validator, got the current epoch stamped, and took its balance from one of the
supplied stake accounts that resolves to its validator. -/
def refreshedRecord (epoch : Nat) (accounts : List StakeAccountInput)
    (old new : ValidatorStakeInfo) : Prop :=
  (epoch ≤ old.lastUpdateEpoch → new = old) ∧
  (new ≠ old →
    old.lastUpdateEpoch < epoch ∧ new.validatorAccount = old.validatorAccount ∧
    new.lastUpdateEpoch = epoch ∧
    ∃ acc ∈ accounts,
      (get_validator acc.data).toOption = some old.validatorAccount ∧
      new.balance = acc.lamports)

theorem updateListRecordLoop_spec (epoch : Nat) :
    ∀ (pairs : List (Nat × Option Pubkey)) (r : ValidatorStakeInfo) (c : Bool)
      (out : ValidatorStakeInfo × Bool),
      updateListRecordLoop epoch pairs r c = .ok out →
      out.1.validatorAccount = r.validatorAccount ∧
      (out = (r, c) ∨
        (out.2 = true ∧ out.1.lastUpdateEpoch = epoch ∧
          ∃ p ∈ pairs, p.2 = some r.validatorAccount ∧ out.1.balance = p.1)) := by
  intro pairs
  induction pairs with
  | nil =>
    intro r c out h
    unfold updateListRecordLoop at h
    injection h with h
    exact ⟨by rw [← h], .inl h.symm⟩
  | cons p rest ih =>
    intro r c out h
    obtain ⟨lam, vOpt⟩ := p
    unfold updateListRecordLoop at h
    split at h
    · exact Except.noConfusion h
    · rename_i v
      split at h
      · rename_i hv
        obtain ⟨hkey, hd⟩ := ih r c out h
        refine ⟨hkey, ?_⟩
        rcases hd with h1 | ⟨hc, he, q, hq, hqv, hq2⟩
        · exact .inl h1
        · exact .inr ⟨hc, he, q, List.mem_cons_of_mem _ hq, hqv, hq2⟩
      · rename_i hv
        have hveq : v = r.validatorAccount := (not_not.mp hv).symm
        obtain ⟨hkey, hd⟩ := ih _ true out h
        refine ⟨hkey, .inr ?_⟩
        rcases hd with h1 | ⟨hc, he, q, hq, hqv, hq2⟩
        · refine ⟨by rw [h1], by rw [h1], (lam, some v), List.mem_cons_self _ _,
            by rw [hveq], by rw [h1]⟩
        · exact ⟨hc, he, q, List.mem_cons_of_mem _ hq, hqv, hq2⟩

theorem updateListLoop_forall₂ (epoch : Nat) (accounts : List StakeAccountInput) :
    ∀ (l : List ValidatorStakeInfo) (c : Bool) (out : List ValidatorStakeInfo × Bool),
      updateListLoop epoch
        (accounts.map fun a => (a.lamports, (get_validator a.data).toOption)) l c =
        .ok out →
      List.Forall₂ (refreshedRecord epoch accounts) l out.1 := by
  intro l
  induction l with
  | nil =>
    intro c out h
    unfold updateListLoop at h
    injection h with h
    rw [← h]
    exact List.Forall₂.nil
  | cons r rest ih =>
    intro c out h
    unfold updateListLoop at h
    split at h
    · rename_i hskip
      split at h
      · exact Except.noConfusion h
      · rename_i rs0 c0 hrec
        injection h with h
        rw [← h]
        exact List.Forall₂.cons ⟨fun _ => rfl, fun hne => absurd rfl hne⟩
          (ih c (rs0, c0) hrec)
    · rename_i hskip
      split at h
      · exact Except.noConfusion h
      · rename_i r' c1 hrec1
        split at h
        · exact Except.noConfusion h
        · rename_i rs0 c2 hrec2
          injection h with h
          rw [← h]
          refine List.Forall₂.cons ?_ (ih c1 (rs0, c2) hrec2)
          obtain ⟨hkey, hd⟩ := updateListRecordLoop_spec epoch _ r c (r', c1) hrec1
          refine ⟨fun hle => absurd hle hskip, fun hne => ?_⟩
          rcases hd with h1 | ⟨hc, he, q, hq, hqv, hq2⟩
          · exact absurd (congrArg Prod.fst h1) hne
          · refine ⟨lt_of_not_le hskip, hkey, he, ?_⟩
            obtain ⟨acc, hacc, hfa⟩ := List.mem_map.mp hq
            subst hfa
            exact ⟨acc, hacc, hqv, hq2⟩

theorem updateListLoop_fresh (epoch : Nat) (pairs : List (Nat × Option Pubkey)) :
    ∀ (l : List ValidatorStakeInfo) (c : Bool),
      (∀ r ∈ l, epoch ≤ r.lastUpdateEpoch) →
      updateListLoop epoch pairs l c = .ok (l, c) := by
  intro l
  induction l with
  | nil => intro c _; rfl
  | cons r rest ih =>
    intro c h
    unfold updateListLoop
    rw [if_pos (h r (List.mem_cons_self r rest)),
      ih c (fun x hx => h x (List.mem_cons_of_mem r hx))]

theorem updateListLoop_keys (epoch : Nat) (pairs : List (Nat × Option Pubkey)) :
    ∀ (l : List ValidatorStakeInfo) (c : Bool) (out : List ValidatorStakeInfo × Bool),
      updateListLoop epoch pairs l c = .ok out →
      out.1.map (fun r => r.validatorAccount) = l.map (fun r => r.validatorAccount) := by
  intro l
  induction l with
  | nil =>
    intro c out h
    unfold updateListLoop at h
    injection h with h
    rw [← h]
  | cons r rest ih =>
    intro c out h
    unfold updateListLoop at h
    split at h
    · rename_i hskip
      split at h
      · exact Except.noConfusion h
      · rename_i rs0 c0 hrec
        injection h with h
        rw [← h]
        simp [ih c (rs0, c0) hrec]
    · rename_i hskip
      split at h
      · exact Except.noConfusion h
      · rename_i r' c1 hrec1
        split at h
        · exact Except.noConfusion h
        · rename_i rs0 c2 hrec2
          injection h with h
          rw [← h]
          have hkey : r'.validatorAccount = r.validatorAccount :=
            (updateListRecordLoop_spec epoch pairs r c (r', c1) hrec1).1
          simp [ih c1 (rs0, c2) hrec2, hkey]

/-- C9: `UpdateListBalance` refreshes the balance and epoch only of stale
records matched by a supplied stake account: on success every record pair
(old, new) satisfies `refreshedRecord` — a record with
`last_update_epoch ≥ currentEpoch` is returned unchanged, and any changed
record was stale, kept its validator, was stamped with the current epoch and
took the lamports of a matching supplied account — and when no record is
stale the handler succeeds without writing the validator list at all. -/
theorem update_list_balance_frame (epoch : Nat) (vlist : ValidatorStakeList)
    (accounts : List StakeAccountInput) :
    (∀ res, process_update_list_balance epoch vlist accounts = .ok res →
      List.Forall₂ (refreshedRecord epoch accounts)
        vlist.validators res.vlist.validators) ∧
    (vlist.isInitialized = true →
      (∀ r ∈ vlist.validators, epoch ≤ r.lastUpdateEpoch) →
      process_update_list_balance epoch vlist accounts = .ok ⟨vlist, false⟩) := by
  constructor
  · intro res h
    unfold process_update_list_balance at h
    split at h
    · exact Except.noConfusion h
    · split at h
      · exact Except.noConfusion h
      · rename_i rs changes hloop
        injection h with h
        rw [← h]
        cases changes with
        | true =>
          exact updateListLoop_forall₂ epoch accounts vlist.validators false
            (rs, true) hloop
        | false =>
          exact List.forall₂_same.mpr
            (fun x _ => ⟨fun _ => rfl, fun hne => absurd rfl hne⟩)
  · intro hinit hfresh
    unfold process_update_list_balance
    rw [if_neg (by simp [hinit]),
      updateListLoop_fresh epoch _ vlist.validators false hfresh]
    rfl

/-- Witness for C9: refreshing `testVlist` at epoch 6 with a stake account of
800 lamports delegated to validator 9 rewrites the single stale record to
balance 800 and epoch 6; at epoch 5 nothing is stale and the handler is a
no-op that does not write the list. -/
theorem update_list_balance_frame_witness :
    List.Forall₂ (refreshedRecord 6 [⟨800, some (.stakeDelegated 9)⟩])
      testVlist.validators [⟨9, 800, 6⟩] ∧
    process_update_list_balance 5 testVlist [⟨800, some (.stakeDelegated 9)⟩] =
      .ok ⟨testVlist, false⟩ := by
  constructor
  · exact (update_list_balance_frame 6 testVlist [⟨800, some (.stakeDelegated 9)⟩]).1
      ⟨⟨1, [⟨9, 800, 6⟩]⟩, true⟩ rfl
  · exact (update_list_balance_frame 5 testVlist [⟨800, some (.stakeDelegated 9)⟩]).2
      rfl (by decide)

/-- The claim's deposit conversion formula, stated from the spec's words (to
be compared against the handler's behaviour): identity when
`stake_total = 0`, otherwise `floor(stakeValue * pool_total / stake_total)`. -/
def depositPoolAmountSpec (pool : StakePool) (stakeValue : Nat) : Nat :=
  if pool.stakeTotal = 0 then stakeValue
  else stakeValue * pool.poolTotal / pool.stakeTotal

theorem calc_pool_deposit_amount_some (pool : StakePool) (v x : Nat)
    (h : pool.calc_pool_deposit_amount v = some x) :
    x = depositPoolAmountSpec pool v := by
  unfold depositPoolAmountSpec
  exact proportional_some v pool.poolTotal pool.stakeTotal x h

theorem calc_fee_amount_some (pool : StakePool) (x f : Nat)
    (h : pool.calc_fee_amount x = some f) :
    pool.fee.denominator ≠ 0 ∧
      f = x * pool.fee.numerator / pool.fee.denominator := by
  unfold StakePool.calc_fee_amount at h
  split at h
  · exact Option.noConfusion h
  · rename_i hden
    refine ⟨hden, ?_⟩
    split at h
    · split at h
      · injection h with h
        exact h.symm
      · exact Option.noConfusion h
    · exact Option.noConfusion h

/-- C1: every successful Deposit converts the deposited lamports at the
stored exchange rate — `pool_amount = floor(stakeValue * pool_total /
stake_total)`, or `stakeValue` itself when `stake_total = 0` — mints
`pool_amount - fee_amount` to the depositor's destination and
`fee_amount = floor(pool_amount * fee.numerator / fee.denominator)` to the
owner fee account, and adds `pool_amount` to `pool_total` and `stakeValue`
to `stake_total` (the u64 no-overflow side conditions are the two `< U64_MOD`
hypotheses). -/
theorem deposit_exchange (d : Deriver) (pid : Pubkey) (a : DepositAccounts)
    (pool : StakePool) (vlist : ValidatorStakeList) (r : DepositResult)
    (h : process_deposit d pid a pool vlist = Except.ok r)
    (hpo : pool.poolTotal + depositPoolAmountSpec pool a.stakeLamports < U64_MOD)
    (hso : pool.stakeTotal + a.stakeLamports < U64_MOD) :
    r.feeMintAmount =
      depositPoolAmountSpec pool a.stakeLamports * pool.fee.numerator /
        pool.fee.denominator ∧
    r.userMintAmount =
      depositPoolAmountSpec pool a.stakeLamports - r.feeMintAmount ∧
    r.userMintTo = a.destUserKey ∧ r.feeMintTo = a.ownerFeeKey ∧
    r.pool.poolTotal =
      pool.poolTotal + depositPoolAmountSpec pool a.stakeLamports ∧
    r.pool.stakeTotal = pool.stakeTotal + a.stakeLamports := by
  unfold process_deposit at h
  split at h
  · exact Except.noConfusion h
  split at h
  · exact Except.noConfusion h
  split at h
  · exact Except.noConfusion h
  split at h
  · exact Except.noConfusion h
  split at h
  · exact Except.noConfusion h
  split at h
  · exact Except.noConfusion h
  split at h
  · exact Except.noConfusion h
  split at h
  · exact Except.noConfusion h
  split at h
  · exact Except.noConfusion h
  split at h
  · exact Except.noConfusion h
  split at h
  · exact Except.noConfusion h
  rename_i va hva
  split at h
  · exact Except.noConfusion h
  split at h
  · exact Except.noConfusion h
  rename_i pa hpa
  split at h
  · exact Except.noConfusion h
  rename_i fa hfa
  split at h
  · exact Except.noConfusion h
  injection h with h
  subst h
  have hpa' : pa = depositPoolAmountSpec pool a.stakeLamports :=
    calc_pool_deposit_amount_some pool a.stakeLamports pa hpa
  subst hpa'
  obtain ⟨hden, hfa'⟩ := calc_fee_amount_some pool _ fa hfa
  exact ⟨hfa', rfl, rfl, rfl, Nat.mod_eq_of_lt hpo, Nat.mod_eq_of_lt hso⟩

/-- Test fixture: a deterministic stand-in for the program-address
derivations (the handlers only compare derived keys for equality). -/
def testDeriver : Deriver :=
  { authorityId := fun _pid pool t _b =>
      some (match t with | .deposit => pool + 1 | .withdraw => pool + 2),
    findStakeAddressForValidator := fun _pid v pool => v + 1000 * pool }

/-- Test fixture: Deposit accounts for `testPool`/`testVlist` under
`testDeriver` with program id 7: 200 lamports deposited toward validator 9. -/
def testDepositAccounts : DepositAccounts :=
  { stakePoolKey := 50, validatorStakeListKey := 20, depositKey := 51,
    withdrawKey := 52, stakeLamports := 200,
    stakeData := some (.stakeDelegated 9), validatorStakeAccountKey := 50009,
    validatorStakeAccountLamports := 500,
    validatorStakeAccountData := some (.stakeDelegated 9), destUserKey := 60,
    ownerFeeKey := 22, poolMintKey := 21, clockEpoch := 5, stakeHistory := [],
    tokenProgramKey := 23, stakeProgramKey := 1 }

/-- The result of the fixture deposit: `pool_amount = 100`, fee 1, user 99,
totals 1100/2200, validator balance 700. -/
def testDepositResult : DepositResult :=
  { pool := { testPool with poolTotal := 1100, stakeTotal := 2200 },
    vlist := { version := 1, validators := [⟨9, 700, 5⟩] },
    userMintTo := 60, userMintAmount := 99, feeMintTo := 22,
    feeMintAmount := 1 }

/-- Witness for C1 at the fixture deposit (the spec's own worked example:
totals 1000/2000, fee 1/100, deposit 200 → pool_amount 100, fee 1, user 99,
totals 1100/2200). -/
theorem deposit_exchange_witness :
    testDepositResult.feeMintAmount =
      depositPoolAmountSpec testPool 200 * testPool.fee.numerator /
        testPool.fee.denominator ∧
    testDepositResult.userMintAmount =
      depositPoolAmountSpec testPool 200 - testDepositResult.feeMintAmount ∧
    testDepositResult.userMintTo = testDepositAccounts.destUserKey ∧
    testDepositResult.feeMintTo = testDepositAccounts.ownerFeeKey ∧
    testDepositResult.pool.poolTotal =
      testPool.poolTotal + depositPoolAmountSpec testPool 200 ∧
    testDepositResult.pool.stakeTotal = testPool.stakeTotal + 200 :=
  deposit_exchange testDeriver 7 testDepositAccounts testPool testVlist
    testDepositResult rfl (by decide) (by decide)

/-- The validator accounts recorded in a list, in order. -/
def validatorKeys (l : ValidatorStakeList) : List Pubkey :=
  l.validators.map (fun r => r.validatorAccount)

theorem updateFirstValidator_keys (f : ValidatorStakeInfo → ValidatorStakeInfo)
    (v : Pubkey) (hf : ∀ i, (f i).validatorAccount = i.validatorAccount) :
    ∀ l : List ValidatorStakeInfo,
      (updateFirstValidator f v l).map (fun r => r.validatorAccount) =
        l.map (fun r => r.validatorAccount) := by
  intro l
  induction l with
  | nil => rfl
  | cons i rest ih =>
    unfold updateFirstValidator
    by_cases hi : i.validatorAccount = v
    · rw [if_pos hi]
      simp [hf]
    · rw [if_neg hi]
      simp [ih]

set_option maxHeartbeats 1600000 in
/-- C7: the list-mutating operations preserve at-most-one-entry-per-validator:
adding a validator already present fails with `ValidatorAlreadyAdded` (and so
appends nothing); a successful add of an absent validator keeps the key list
duplicate-free; a successful remove leaves no entry for the removed validator
and keeps the key list duplicate-free; and Deposit, Withdraw and
UpdateListBalance never change the key list at all. -/
theorem validator_list_unique :
    (∀ d pid a pool vlist va,
      a.stakeProgramKey = STAKE_PROGRAM_ID →
      pool.isInitialized = true →
      pool.check_authority_withdraw d a.withdrawKey pid a.stakePoolKey = .ok () →
      pool.check_authority_deposit d a.depositKey pid a.stakePoolKey = .ok () →
      pool.check_owner a.ownerKey a.ownerIsSigner = .ok () →
      ¬ pool.lastUpdateEpoch < a.clockEpoch →
      pool.tokenProgramId = a.tokenProgramKey →
      pool.poolMint = a.poolMintKey →
      a.validatorStakeListKey = pool.validatorStakeList →
      vlist.isInitialized = true →
      get_validator_checked d pid a.stakePoolKey a.stakeAccountKey
        a.stakeAccountData = .ok va →
      vlist.containsValidator va = true →
      process_add_validator_stake_account d pid a pool vlist =
        .error (.custom .validatorAlreadyAdded)) ∧
    (∀ d pid a pool vlist r,
      process_add_validator_stake_account d pid a pool vlist = Except.ok r →
      (validatorKeys vlist).Nodup → (validatorKeys r.vlist).Nodup) ∧
    (∀ d pid a pool vlist r va,
      get_validator_checked d pid a.stakePoolKey a.stakeAccountKey
        a.stakeAccountData = .ok va →
      process_remove_validator_stake_account d pid a pool vlist = Except.ok r →
      va ∉ validatorKeys r.vlist) ∧
    (∀ d pid a pool vlist r,
      process_remove_validator_stake_account d pid a pool vlist = Except.ok r →
      (validatorKeys vlist).Nodup → (validatorKeys r.vlist).Nodup) ∧
    (∀ d pid a pool vlist r,
      process_deposit d pid a pool vlist = Except.ok r →
      validatorKeys r.vlist = validatorKeys vlist) ∧
    (∀ d pid amt a pool vlist r,
      process_withdraw d pid amt a pool vlist = Except.ok r →
      validatorKeys r.vlist = validatorKeys vlist) ∧
    (∀ epoch vlist accounts res,
      process_update_list_balance epoch vlist accounts = Except.ok res →
      validatorKeys res.vlist = validatorKeys vlist) := by
  refine ⟨?_, ?_, ?_, ?_, ?_, ?_, ?_⟩
  · intro d pid a pool vlist va h1 h2 h3 h4 h5 h6 h7 h8 h9 h10 h11 h12
    unfold process_add_validator_stake_account
    rw [if_neg (by simp [h1]), if_neg (by simp [h2])]
    simp only [h3, h4, h5]
    rw [if_neg h6, if_neg (by simp [h7]), if_neg (by simp [h8]),
      if_neg (by simp [h9]), if_neg (by simp [h10])]
    simp only [h11]
    rw [if_pos h12]
  · intro d pid a pool vlist r h hnd
    unfold process_add_validator_stake_account at h
    repeat' split at h
    all_goals try exact Except.noConfusion h
    rename_i x2 va hva hcont x1 ta hta x0 u hact
    injection h with h
    subst h
    have hmem : ∀ x ∈ vlist.validators, x.validatorAccount ≠ va := by
      intro x hx hkeq
      apply hcont
      simp only [ValidatorStakeList.containsValidator, List.any_eq_true]
      exact ⟨x, hx, by simp [hkeq]⟩
    simp only [validatorKeys, List.map_append, List.map_cons, List.map_nil]
    apply List.Nodup.append
    · simpa [validatorKeys] using hnd
    · exact List.nodup_singleton va
    · rw [List.disjoint_singleton]
      intro hin
      obtain ⟨x, hx, hxk⟩ := List.mem_map.mp hin
      exact hmem x hx hxk
  · intro d pid a pool vlist r va hgvc h
    unfold process_remove_validator_stake_account at h
    repeat' split at h
    all_goals try exact Except.noConfusion h
    rename_i x1 va' hva' hncont x0 ta hta
    injection h with h
    subst h
    have hv : (Except.ok va : Except ProgramError Pubkey) = .ok va' :=
      hgvc.symm.trans hva'
    injection hv with hv
    subst hv
    intro hin
    simp only [validatorKeys] at hin
    obtain ⟨x, hx, hxk⟩ := List.mem_map.mp hin
    have hpred := List.of_mem_filter hx
    simp only [decide_eq_true_eq] at hpred
    exact hpred hxk
  · intro d pid a pool vlist r h hnd
    unfold process_remove_validator_stake_account at h
    repeat' split at h
    all_goals try exact Except.noConfusion h
    injection h with h
    subst h
    simp only [validatorKeys] at hnd ⊢
    exact List.Nodup.sublist ((List.filter_sublist _).map _) hnd
  · intro d pid a pool vlist r h
    unfold process_deposit at h
    repeat' split at h
    all_goals try exact Except.noConfusion h
    injection h with h
    subst h
    simp only [validatorKeys]
    apply updateFirstValidator_keys
    intro i
    rfl
  · intro d pid amt a pool vlist r h
    unfold process_withdraw at h
    repeat' split at h
    all_goals try exact Except.noConfusion h
    injection h with h
    subst h
    simp only [validatorKeys]
    apply updateFirstValidator_keys
    intro i
    rfl
  · intro epoch vlist accounts res h
    unfold process_update_list_balance at h
    repeat' split at h
    all_goals try exact Except.noConfusion h
    all_goals
      rename_i rs c hloop hc
      injection h with h
      subst h
      first
        | rfl
        | simp only [validatorKeys]
          exact updateListLoop_keys epoch _ vlist.validators false (rs, c) hloop

/-- Test fixture: AddValidatorStakeAccount accounts targeting validator 9,
which `testVlist` already contains. -/
def testAddValidatorAccounts : AddValidatorAccounts :=
  { stakePoolKey := 50, ownerKey := 3, ownerIsSigner := true, depositKey := 51,
    withdrawKey := 52, validatorStakeListKey := 20, stakeAccountKey := 50009,
    stakeAccountLamports := 300, stakeAccountData := some (.stakeDelegated 9),
    destUserKey := 61, poolMintKey := 21, clockEpoch := 5, stakeHistory := [],
    tokenProgramKey := 23, stakeProgramKey := 1 }

/-- Test fixture: RemoveValidatorStakeAccount accounts targeting validator 9
with a pooled stake account of 300 lamports. -/
def testRemoveAccounts : RemoveValidatorAccounts :=
  { stakePoolKey := 50, ownerKey := 3, ownerIsSigner := true,
    withdrawKey := 52, newStakeAuthorityKey := 65, validatorStakeListKey := 20,
    stakeAccountKey := 50009, stakeAccountLamports := 300,
    stakeAccountData := some (.stakeDelegated 9), burnFromKey := 62,
    poolMintKey := 21, clockEpoch := 5, tokenProgramKey := 23,
    stakeProgramKey := 1 }

/-- The result of the fixture removal: burns
`floor(300 * 1000 / 2000) = 150` shares, decrements totals to 850/1700, and
leaves the validator list empty. -/
def testRemoveResult : RemoveValidatorResult :=
  { pool := { testPool with poolTotal := 850, stakeTotal := 1700 },
    vlist := { version := 1, validators := [] },
    burnedFrom := 62, burnedAmount := 150 }

/-- Witness for C7: adding validator 9 a second time fails with
`ValidatorAlreadyAdded`, and after the fixture removal no entry for
validator 9 remains. -/
theorem validator_list_unique_witness :
    process_add_validator_stake_account testDeriver 7 testAddValidatorAccounts
      testPool testVlist = .error (.custom .validatorAlreadyAdded) ∧
    9 ∉ validatorKeys testRemoveResult.vlist :=
  ⟨validator_list_unique.1 testDeriver 7 testAddValidatorAccounts testPool
      testVlist 9 rfl rfl rfl rfl rfl (by decide) rfl rfl rfl rfl rfl rfl,
    validator_list_unique.2.2.1 testDeriver 7 testRemoveAccounts testPool
      testVlist testRemoveResult 9 rfl rfl⟩

end StakePoolProgram
